import Mathlib

/-!
Shallow embedding of `src/hw1.py`, a small pandas-based query module over a
wide-format COVID-19 time-series table, together with theorems settling the
specification claims.

Data model: the pandas `DataFrame confirmed_cases` has one row per
country/region (label in column `Country/Region`, not unique) and one column
per date key (a string such as `3/7/20`); a cell holds an integer case count.
We embed a row as a label plus a total function from column names to integers
(a pandas row has a value for every column; the separate `columns` list
records which column names exist, and every access the code performs is
guarded by membership in it, mirroring pandas raising `KeyError` on a missing
column).

Python exceptions are embedded as an error type: the `ValueError` raised by
`get_date_str`'s bounds check and by `strptime` on a non-calendar date is
`InvalidDateError`; the `KeyError` raised by selecting an absent column is
`DateNotFoundError`; the `IndexError` raised by `.iloc[0]` on an empty
selection is `CountryNotFoundError`.  These are the names the specification
gives the three failure classes.
-/

inductive HWError where
  | InvalidDateError
  | DateNotFoundError
  | CountryNotFoundError
  deriving DecidableEq, Repr

/-- A table row: the `Country/Region` label and the cell contents, one integer
per column name. -/
structure Row where
  label : String
  cells : String → Int

/-- The wide-format table: ordered rows and the ordered list of date columns. -/
structure Table where
  rows : List Row
  columns : List String

/-- Embedding of `get_date_str(day, month, year=2020)` from `src/hw1.py`:
validates `1 <= day <= 31`, `1 <= month <= 12`, `2000 <= year <= 2020`
(raising `ValueError` otherwise) and returns
`str(month) + '/' + str(day) + '/' + str(year)[2:]`. -/
def get_date_str (day month : Nat) (year : Nat := 2020) : Except HWError String :=
  if 1 ≤ day ∧ day ≤ 31 ∧ 1 ≤ month ∧ month ≤ 12 ∧ 2000 ≤ year ∧ year ≤ 2020 then
    Except.ok (toString month ++ "/" ++ toString day ++ "/" ++ (toString year).drop 2)
  else
    Except.error HWError.InvalidDateError

/-- Two-digit zero-padded decimal rendering of `n < 100`, as produced by
`strftime` for the `%m`, `%d` and `%y` fields. -/
def pad2 (n : Nat) : String :=
  if n < 10 then "0" ++ toString n else toString n

/-- Gregorian leap-year test, as implemented by Python's `datetime`. -/
def isLeapYear (y : Nat) : Bool :=
  (y % 4 == 0 && y % 100 != 0) || y % 400 == 0

/-- Number of days of month `m` (1-12) in year `y`, as validated by
`datetime.strptime` and used by `timedelta` arithmetic. -/
def daysInMonth (m y : Nat) : Nat :=
  if m = 2 then (if isLeapYear y then 29 else 28)
  else if m = 4 ∨ m = 6 ∨ m = 9 ∨ m = 11 then 30
  else 31

/-- The calendar day before day `d` of month `m` of year `y`: the result of
`datetime.strptime(..) - timedelta(days=1)` on a valid calendar date. -/
def prevDay (d m y : Nat) : Nat × Nat × Nat :=
  if 1 < d then (d - 1, m, y)
  else if 1 < m then (daysInMonth (m - 1) y, m - 1, y)
  else (31, 12, y - 1)

/-- `strftime('%m/%d/%y')`: every component zero-padded to two digits. -/
def strftimeMDY (d m y : Nat) : String :=
  pad2 m ++ "/" ++ pad2 d ++ "/" ++ pad2 (y % 100)

/-- `re.sub(r"^0", "", s)`: drop a single leading `'0'` if present. -/
def subLeadingZero : List Char → List Char
  | [] => []
  | c :: rest => if c = '0' then rest else c :: rest

/-- `re.sub(r"/0", "/", s)`: replace every occurrence of `"/0"` by `"/"`,
scanning left to right over non-overlapping matches. -/
def subSlashZero : List Char → List Char
  | [] => []
  | [c] => [c]
  | c1 :: c2 :: rest =>
    if c1 = '/' ∧ c2 = '0' then '/' :: subSlashZero rest
    else c1 :: subSlashZero (c2 :: rest)

/-- The previous-day column key computed by `no_new_cases_count`:
`strftime('%m/%d/%y')` of the previous calendar day with the two regex
substitutions applied. -/
def codePrevDateStr (d m y : Nat) : String :=
  let p := prevDay d m y
  String.mk (subSlashZero (subLeadingZero (strftimeMDY p.1 p.2.1 p.2.2).data))

/-- Embedding of `poland_cases_by_date` from `src/hw1.py`, generalized over the
country name, which the source hard-codes to `"Poland"` (the specification
calls the generalized operation `cases_for_country`): build the date key,
filter the rows whose `Country/Region` label equals the name, select the date
column (`KeyError` if absent) and return `.iloc[0]` of the selection
(`IndexError` if no row matched). -/
def cases_for_country (t : Table) (name : String) (day month : Nat)
    (year : Nat := 2020) : Except HWError Int :=
  match get_date_str day month year with
  | Except.error e => Except.error e
  | Except.ok date =>
    let matching := t.rows.filter (fun r => r.label == name)
    if date ∈ t.columns then
      match matching with
      | [] => Except.error HWError.CountryNotFoundError
      | r :: _ => Except.ok (r.cells date)
    else Except.error HWError.DateNotFoundError

/-- `poland_cases_by_date` exactly as in `src/hw1.py`: the lookup with the
hard-coded label `"Poland"`. -/
def poland_cases_by_date (t : Table) (day month : Nat) (year : Nat := 2020) :
    Except HWError Int :=
  cases_for_country t "Poland" day month year

/-- Lexicographic comparison of character lists by code point: the order in
which Python compares the group labels (plain `str` comparison). -/
def charListLe : List Char → List Char → Bool
  | [], _ => true
  | _ :: _, [] => false
  | a :: as, b :: bs => if a = b then charListLe as bs else decide (a < b)

/-- Lexicographic order on strings by code point, the sort key order used by
`groupby` on the `Country/Region` column. -/
def labelLe (a b : String) : Prop := charListLe a.data b.data = true

instance : DecidableRel labelLe :=
  fun a b => inferInstanceAs (Decidable (charListLe a.data b.data = true))

/-- Sum of the case counts at column `date` over all rows labelled `c`:
the aggregation performed by `groupby("Country/Region").sum()`. -/
def countrySum (t : Table) (date : String) (c : String) : Int :=
  (((t.rows.filter (fun r => r.label == c)).map (fun r => r.cells date))).sum

/-- The comparator of `sort_values(by=date, ascending=False)` on the grouped
table: descending summed count. -/
def countGe (p q : String × Int) : Prop := q.2 ≤ p.2

instance : DecidableRel countGe := fun p q => inferInstanceAs (Decidable (q.2 ≤ p.2))

/-- Embedding of the body of `top5_countries_by_date` from `src/hw1.py`,
generalized over `n` where the source hard-codes `head(5)` (the specification
calls the generalized operation `top_n_countries`): select the country and
date columns (`KeyError` if the date key is absent), group by label —
pandas `groupby` with its default `sort=True` lists the groups in ascending
label order — summing the counts of each group, sort the groups by summed
count descending, and return the first `n` labels.  The descending sort —
`sort_values(by=date, ascending=False)` with the default `kind='quicksort'`
— is embedded as a stable insertion sort.  This agrees with the program
exactly when the number of groups is below 16: numpy's quicksort sorts such
slices entirely by its stable insertion sort, and pandas implements
`ascending=False` over a stable kernel as a stable descending sort; for 16 or
more tied elements the quicksort gives no tie-order guarantee, and the
insertion sort is then only one fixed resolution of the unspecified tie
order.  Accordingly, the tie-order theorem (claim C2) is stated only for
tables with fewer than 16 distinct labels, while the shape theorems
(claims C8 and C10) hold for any permutation sorted by descending count,
independent of how ties are resolved. -/
def top_n_countries (t : Table) (n : Nat) (day month : Nat)
    (year : Nat := 2020) : Except HWError (List String) :=
  match get_date_str day month year with
  | Except.error e => Except.error e
  | Except.ok date =>
    if date ∈ t.columns then
      let groups := ((t.rows.map Row.label).dedup).insertionSort labelLe
      let pairs := groups.map (fun c => (c, countrySum t date c))
      let ranking := pairs.insertionSort countGe
      Except.ok ((ranking.take n).map Prod.fst)
    else Except.error HWError.DateNotFoundError

/-- `top5_countries_by_date` exactly as in `src/hw1.py`: `head(5)`. -/
def top5_countries_by_date (t : Table) (day month : Nat) (year : Nat := 2020) :
    Except HWError (List String) :=
  top_n_countries t 5 day month year

/-- Embedding of `no_new_cases_count` from `src/hw1.py`: build the date key,
re-parse it with `strptime('%m/%d/%y')` — which raises `ValueError` when the
day exceeds the length of the month, leap years respected — subtract one day,
render the result zero-padded and strip the padding with the two regex
substitutions, select the country column and both date columns (`KeyError` if
either date key is absent), and return the number of rows whose values at the
two keys differ. -/
def no_new_cases_count (t : Table) (day month : Nat) (year : Nat := 2020) :
    Except HWError Nat :=
  match get_date_str day month year with
  | Except.error e => Except.error e
  | Except.ok date =>
    if day ≤ daysInMonth month year then
      let prev_date := codePrevDateStr day month year
      if date ∈ t.columns ∧ prev_date ∈ t.columns then
        Except.ok (t.rows.filter
          (fun r => r.cells date != r.cells prev_date)).length
      else Except.error HWError.DateNotFoundError
    else Except.error HWError.InvalidDateError

/-- The calendar day after day `d` of month `m` of year `y`.  Spec-side
characterization of the calendar: `prevDay` is correct exactly when following
it by `nextDay` is the identity on valid dates. -/
def nextDay (d m y : Nat) : Nat × Nat × Nat :=
  if d < daysInMonth m y then (d + 1, m, y)
  else if m < 12 then (1, m + 1, y)
  else (1, 1, y + 1)

/-- One step of collecting distinct elements in order of first appearance. -/
def foStep (acc : List String) (c : String) : List String :=
  if c ∈ acc then acc else acc ++ [c]

/-- The distinct elements of a list in order of first appearance. -/
def firstOccurrences (l : List String) : List String :=
  l.foldl foStep []

/-- Descending count with ties broken by ascending label: the total order in
which `top_n_countries` actually returns the groups. -/
def combOrd (p q : String × Int) : Prop :=
  q.2 < p.2 ∨ (q.2 = p.2 ∧ labelLe p.1 q.1)

instance : DecidableRel combOrd :=
  fun p q => inferInstanceAs (Decidable (q.2 < p.2 ∨ (q.2 = p.2 ∧ labelLe p.1 q.1)))

/-- Modelled from the spec, for comparison with the code: the claimed top-`n`
ranking — group labels in order of first appearance, sum each group's counts
at the date key, sort by summed count descending with ties preserving the
relative first-appearance order (stable sort), return the first `n` labels. -/
def topN_claimed (t : Table) (n : Nat) (date : String) : List String :=
  let pairs := (firstOccurrences (t.rows.map Row.label)).map
    (fun c => (c, countrySum t date c))
  ((pairs.insertionSort countGe).take n).map Prod.fst

/-- Modelled from the spec as amended: group labels with their summed counts
at the date key, ordered by summed count descending with ties broken by
ascending label, first `n` labels. -/
def topN_amended (t : Table) (n : Nat) (date : String) : List String :=
  let pairs := (firstOccurrences (t.rows.map Row.label)).map
    (fun c => (c, countrySum t date c))
  ((pairs.insertionSort combOrd).take n).map Prod.fst

/-- The process state of the running module: the module-level `DataFrame`
`confirmed_cases` loaded once at import time.  None of the query functions
assigns to it. -/
structure ProcState where
  confirmed_cases : Table

/-- A call of the single-country lookup as executed against the process
state: the function reads the global table and performs no assignment, so the
state after the call is the state before it. -/
def cases_for_country_call (σ : ProcState) (name : String) (day month : Nat)
    (year : Nat := 2020) : Except HWError Int × ProcState :=
  (cases_for_country σ.confirmed_cases name day month year, σ)

/-!
Lemmas about the string machinery: the trailing two characters of the
rendered year, and the effect of the two regex substitutions on a
zero-padded `%m/%d/%y` string.
-/

theorem yearDropPadAux : ∀ k, k < 21 →
    (toString (2000 + k)).drop 2 = pad2 ((2000 + k) % 100) := by decide

theorem yearDropStrAux : ∀ k, k < 11 →
    (toString (2010 + k)).drop 2 = toString ((2010 + k) % 100) := by decide

theorem yearDropPad (y : Nat) (h1 : 2000 ≤ y) (h2 : y ≤ 2020) :
    (toString y).drop 2 = pad2 (y % 100) := by
  have h := yearDropPadAux (y - 2000) (by omega)
  rwa [show 2000 + (y - 2000) = y by omega] at h

theorem yearDropStr (y : Nat) (h1 : 2010 ≤ y) (h2 : y ≤ 2020) :
    (toString y).drop 2 = toString (y % 100) := by
  have h := yearDropStrAux (y - 2010) (by omega)
  rwa [show 2010 + (y - 2010) = y by omega] at h

theorem pad2_of_lt (n : Nat) (h : n < 10) : pad2 n = "0" ++ toString n :=
  if_pos h

theorem subLeadingZero_cons (c : Char) (t : List Char) :
    subLeadingZero (c :: t) = if c = '0' then t else c :: t := rfl

theorem subLeadingZero_zero (t : List Char) : subLeadingZero ('0' :: t) = t := by
  rw [subLeadingZero_cons, if_pos rfl]

theorem subLeadingZero_of_ne (c : Char) (t : List Char) (h : ¬c = '0') :
    subLeadingZero (c :: t) = c :: t := by
  rw [subLeadingZero_cons, if_neg h]

theorem subLeadingZero_pad2_append (m : Nat) (h1 : 1 ≤ m) (h2 : m ≤ 12)
    (rest : List Char) :
    subLeadingZero ((pad2 m).data ++ rest) = (toString m).data ++ rest := by
  by_cases h : m < 10
  · rw [pad2_of_lt m h]
    exact subLeadingZero_zero _
  · have h10 : 10 ≤ m := Nat.not_lt.mp h
    interval_cases m <;> exact subLeadingZero_of_ne _ _ (by decide)

theorem subSlashZero_cons_of_ne (c : Char) (l : List Char) (h : ¬c = '/') :
    subSlashZero (c :: l) = c :: subSlashZero l := by
  cases l with
  | nil => rfl
  | cons c2 t =>
    rw [show subSlashZero (c :: c2 :: t) =
        if c = '/' ∧ c2 = '0' then '/' :: subSlashZero t
        else c :: subSlashZero (c2 :: t) from rfl,
      if_neg (fun hc => h hc.1)]

theorem subSlashZero_append_of_noSlash :
    ∀ (L l2 : List Char), (∀ c ∈ L, ¬c = '/') →
      subSlashZero (L ++ l2) = L ++ subSlashZero l2
  | [], _, _ => rfl
  | c :: L, l2, h => by
    rw [List.cons_append, subSlashZero_cons_of_ne c (L ++ l2)
        (h c (List.mem_cons_self c L)),
      subSlashZero_append_of_noSlash L l2
        (fun x hx => h x (List.mem_cons_of_mem c hx))]
    rfl

theorem monthNoSlash : ∀ m, m < 13 → ∀ c ∈ (toString m).data, ¬c = '/' := by
  decide

set_option maxHeartbeats 4000000 in
theorem dayYearStrip : ∀ d, d < 32 → ∀ yy, yy < 100 →
    subSlashZero (('/' :: (pad2 d).data) ++ ('/' :: (pad2 yy).data)) =
    ('/' :: (toString d).data) ++ ('/' :: (toString yy).data) := by decide

theorem stripPipeline_eq (d m y : Nat) (hd1 : 1 ≤ d) (hd : d ≤ 31)
    (hm1 : 1 ≤ m) (hm : m ≤ 12) :
    String.mk (subSlashZero (subLeadingZero (strftimeMDY d m y).data)) =
    toString m ++ "/" ++ toString d ++ "/" ++ toString (y % 100) := by
  have hdata : (strftimeMDY d m y).data =
      (pad2 m).data ++ ('/' :: ((pad2 d).data ++ ('/' :: (pad2 (y % 100)).data))) := by
    simp only [strftimeMDY, String.data_append,
      show ("/" : String).data = ['/'] from rfl, List.append_assoc,
      List.singleton_append, List.cons_append, List.nil_append]
  rw [hdata, subLeadingZero_pad2_append m hm1 hm,
    subSlashZero_append_of_noSlash _ _ (monthNoSlash m (by omega)),
    show ('/' :: ((pad2 d).data ++ ('/' :: (pad2 (y % 100)).data))) =
      ('/' :: (pad2 d).data) ++ ('/' :: (pad2 (y % 100)).data) from rfl,
    dayYearStrip d (by omega) (y % 100) (Nat.mod_lt y (by omega))]
  apply String.ext
  simp only [String.data_append, show ("/" : String).data = ['/'] from rfl,
    List.append_assoc, List.singleton_append, List.cons_append, List.nil_append]

/-!
Calendar lemmas: bounds on the components of the previous day, and the fact
that `prevDay` followed by `nextDay` is the identity on valid calendar dates.
-/

theorem daysInMonth_bounds (m y : Nat) :
    28 ≤ daysInMonth m y ∧ daysInMonth m y ≤ 31 := by
  unfold daysInMonth
  split_ifs <;> omega

theorem prevDay_bounds (d m y : Nat) (h1 : 1 ≤ d) (h2 : d ≤ 31)
    (h3 : 1 ≤ m) (h4 : m ≤ 12) :
    1 ≤ (prevDay d m y).1 ∧ (prevDay d m y).1 ≤ 31 ∧
    1 ≤ (prevDay d m y).2.1 ∧ (prevDay d m y).2.1 ≤ 12 := by
  have hb := daysInMonth_bounds (m - 1) y
  unfold prevDay
  split_ifs <;> simp <;> omega

theorem prevDay_year (d m y : Nat) :
    (prevDay d m y).2.2 = y ∨ (prevDay d m y).2.2 = y - 1 := by
  unfold prevDay
  split_ifs <;> simp

theorem codePrevDateStr_eq (d m y : Nat) (h1 : 1 ≤ d) (h2 : d ≤ 31)
    (h3 : 1 ≤ m) (h4 : m ≤ 12) :
    codePrevDateStr d m y =
      toString (prevDay d m y).2.1 ++ "/" ++ toString (prevDay d m y).1 ++ "/" ++
        toString ((prevDay d m y).2.2 % 100) := by
  have hb := prevDay_bounds d m y h1 h2 h3 h4
  exact stripPipeline_eq (prevDay d m y).1 (prevDay d m y).2.1 (prevDay d m y).2.2
    hb.1 hb.2.1 hb.2.2.1 hb.2.2.2

theorem nextDay_prevDay (d m y : Nat) (h1 : 1 ≤ d) (h2 : d ≤ daysInMonth m y)
    (h3 : 1 ≤ m) (h4 : m ≤ 12) (h5 : 1 ≤ y) :
    nextDay (prevDay d m y).1 (prevDay d m y).2.1 (prevDay d m y).2.2 =
      (d, m, y) := by
  rcases Nat.lt_or_ge 1 d with hd | hd
  · rw [prevDay, if_pos hd]
    rw [nextDay]
    simp only
    rw [if_pos (show d - 1 < daysInMonth m y by omega),
      show d - 1 + 1 = d by omega]
  · have hd1 : d = 1 := by omega
    subst hd1
    rcases Nat.lt_or_ge 1 m with hm | hm
    · rw [prevDay, if_neg (by omega), if_pos hm]
      rw [nextDay]
      simp only
      rw [if_neg (lt_irrefl _), if_pos (show m - 1 < 12 by omega),
        show m - 1 + 1 = m by omega]
    · have hm1 : m = 1 := by omega
      subst hm1
      rw [prevDay, if_neg (by omega), if_neg (by omega)]
      rw [nextDay]
      simp only [show daysInMonth 12 (y - 1) = 31 from rfl]
      rw [if_neg (lt_irrefl 31), if_neg (by decide), show y - 1 + 1 = y by omega]

/-!
Claim C4 — the date-key format.  The code renders the year as
`str(year)[2:]`, which keeps the zero padding of the third and fourth digits:
for year 2005 it produces `"05"`, not the unpadded `"5"` that
`"{year mod 100}" with no leading zeros` would give.  The claim fails for
years 2000-2009 and is amended to: the year component is the last two digits
of the year, zero-padded to width two (which coincides with the unpadded
`year mod 100` exactly for years 2010-2020); month and day carry no padding.
-/

/-- Claim C4, counterexample: at `day = 7, month = 3, year = 2005` the
formatter returns `"3/7/05"`, while the claimed format
`"{month}/{day}/{year mod 100}"` with no leading zeros is `"3/7/5"`. -/
theorem claim_C4_counterexample :
    get_date_str 7 3 2005 = Except.ok "3/7/05" ∧
    toString 3 ++ "/" ++ toString 7 ++ "/" ++ toString (2005 % 100) = "3/7/5" ∧
    "3/7/05" ≠ "3/7/5" :=
  ⟨rfl, rfl, by decide⟩

/-- Claim C4 as amended: for every in-bounds `(day, month, year)` the
formatter returns `"{month}/{day}/{yy}"` where month and day are rendered
without padding and `yy` is `year mod 100` zero-padded to two digits. -/
theorem claim_C4 (d m y : Nat) (h1 : 1 ≤ d) (h2 : d ≤ 31) (h3 : 1 ≤ m)
    (h4 : m ≤ 12) (h5 : 2000 ≤ y) (h6 : y ≤ 2020) :
    get_date_str d m y =
      Except.ok (toString m ++ "/" ++ toString d ++ "/" ++ pad2 (y % 100)) := by
  rw [get_date_str, if_pos ⟨h1, h2, h3, h4, h5, h6⟩, yearDropPad y h5 h6]

/-- Claim C4 witness: the amended statement applied at `(7, 3, 2005)`. -/
theorem claim_C4_witness :
    get_date_str 7 3 2005 =
      Except.ok (toString 3 ++ "/" ++ toString 7 ++ "/" ++ pad2 (2005 % 100)) :=
  claim_C4 7 3 2005 (by decide) (by decide) (by decide) (by decide) (by decide)
    (by decide)

/-!
Claim C5 — the formatter's error behavior: `ValueError` (`InvalidDateError`)
exactly on out-of-bounds components, and no per-month day validation: Feb 31
is accepted.
-/

/-- Claim C5: the formatter fails with `InvalidDateError` exactly when a
component is out of bounds, and day-count-per-month is not validated —
`(31, 2, 2020)` is accepted and formatted as `"2/31/20"`. -/
theorem claim_C5 :
    (∀ d m y : Nat,
      get_date_str d m y = Except.error HWError.InvalidDateError ↔
      ¬(1 ≤ d ∧ d ≤ 31 ∧ 1 ≤ m ∧ m ≤ 12 ∧ 2000 ≤ y ∧ y ≤ 2020)) ∧
    get_date_str 31 2 2020 = Except.ok "2/31/20" := by
  refine ⟨fun d m y => ?_, rfl⟩
  by_cases h : 1 ≤ d ∧ d ≤ 31 ∧ 1 ≤ m ∧ m ≤ 12 ∧ 2000 ≤ y ∧ y ≤ 2020
  · simp [get_date_str, if_pos h, h]
  · simp [get_date_str, if_neg h, h]

/-- Claim C5 witness: a concrete out-of-bounds input `(32, 1, 2020)` on which
the formatter fails with `InvalidDateError`. -/
theorem claim_C5_witness :
    get_date_str 32 1 2020 = Except.error HWError.InvalidDateError :=
  (claim_C5.1 32 1 2020).mpr (by decide)

/-!
Claim C9 — determinism of the lookup: the module-level table is read, never
assigned; a call leaves the process state unchanged and a repeated call with
identical arguments returns the identical value.
-/

/-- Claim C9: a call of the single-country lookup leaves the process state
(the loaded `confirmed_cases` table) unchanged, and a second call with the
identical arguments, run from the state the first call left behind, returns
the identical value. -/
theorem claim_C9 (σ : ProcState) (name : String) (d m y : Nat) :
    (cases_for_country_call σ name d m y).2 = σ ∧
    (cases_for_country_call (cases_for_country_call σ name d m y).2
        name d m y).1 =
      (cases_for_country_call σ name d m y).1 :=
  ⟨rfl, rfl⟩


/-!
Claim C3 — first-match semantics of the single-country lookup: when several
rows share the queried label, the returned value is the cell of the first
matching row in table order, not a sum over the matching rows.
-/

theorem filter_eq_cons_of_find? {α : Type} (p : α → Bool) :
    ∀ {l : List α} {r : α}, l.find? p = some r → ∃ l2, l.filter p = r :: l2
  | a :: l, r, h => by
    by_cases ha : p a
    · rw [List.find?_cons_of_pos _ ha] at h
      refine ⟨l.filter p, ?_⟩
      rw [List.filter_cons_of_pos ha, Option.some.inj h]
    · rw [List.find?_cons_of_neg _ ha] at h
      obtain ⟨l2, hl2⟩ := filter_eq_cons_of_find? p h
      exact ⟨l2, by rw [List.filter_cons_of_neg ha, hl2]⟩

/-- Claim C3: if the date key is a column and some row matches the queried
label, the lookup returns the cell value of the first matching row in table
order (`find?` returns the first match) — in particular it does not aggregate
over the matching rows. -/
theorem claim_C3 (t : Table) (name : String) (d m y : Nat) (s : String)
    (r : Row) (hs : get_date_str d m y = Except.ok s) (hcol : s ∈ t.columns)
    (hfind : t.rows.find? (fun row => row.label == name) = some r) :
    cases_for_country t name d m y = Except.ok (r.cells s) := by
  obtain ⟨l2, hl2⟩ := filter_eq_cons_of_find? _ hfind
  simp only [cases_for_country, hs, hl2]
  rw [if_pos hcol]

/-- A fixture for claim C3: two rows share the label `"Poland"` with different
cell values at `"3/7/20"`, so first-match (5) and aggregation (12) differ. -/
def tblC3 : Table :=
  { rows := [Row.mk "Poland" (fun _ => 5), Row.mk "Poland" (fun _ => 7),
      Row.mk "Czechia" (fun _ => 3)],
    columns := ["3/7/20"] }

/-- Claim C3 witness: on `tblC3` the lookup returns the first Poland row's
value 5, although the rows labelled `"Poland"` sum to 12. -/
theorem claim_C3_witness :
    cases_for_country tblC3 "Poland" 7 3 2020 = Except.ok 5 ∧
    countrySum tblC3 "3/7/20" "Poland" = 12 :=
  ⟨claim_C3 tblC3 "Poland" 7 3 2020 "3/7/20" (Row.mk "Poland" (fun _ => 5))
      rfl (by decide) rfl, rfl⟩

/-!
Claim C6 — the error taxonomy of the single-country lookup.
-/

/-- Claim C6: the lookup fails with `InvalidDateError` on out-of-bounds date
components; with `DateNotFoundError` when the date key is well-formed but not
a column; and with `CountryNotFoundError` when the key is a column but no
row's label equals the queried name. -/
theorem claim_C6 (t : Table) (name : String) (d m y : Nat) :
    (¬(1 ≤ d ∧ d ≤ 31 ∧ 1 ≤ m ∧ m ≤ 12 ∧ 2000 ≤ y ∧ y ≤ 2020) →
      cases_for_country t name d m y = Except.error HWError.InvalidDateError) ∧
    (∀ s, get_date_str d m y = Except.ok s → s ∉ t.columns →
      cases_for_country t name d m y = Except.error HWError.DateNotFoundError) ∧
    (∀ s, get_date_str d m y = Except.ok s → s ∈ t.columns →
      (∀ r ∈ t.rows, r.label ≠ name) →
      cases_for_country t name d m y =
        Except.error HWError.CountryNotFoundError) := by
  refine ⟨fun h => ?_, fun s hs hcol => ?_, fun s hs hcol hlab => ?_⟩
  · simp only [cases_for_country, get_date_str, if_neg h]
  · simp only [cases_for_country, hs]
    rw [if_neg hcol]
  · have hnil : t.rows.filter (fun r => r.label == name) = [] :=
      List.filter_eq_nil_iff.mpr (fun r hr => by simp [hlab r hr])
    simp only [cases_for_country, hs, hnil]
    rw [if_pos hcol]

/-- A fixture for claim C6: one row, one column. -/
def tblC6 : Table :=
  { rows := [Row.mk "Poland" (fun _ => 5)], columns := ["3/7/20"] }

/-- Claim C6 witness: the three failure modes at concrete inputs on `tblC6`:
month 13 is rejected by the formatter; `"3/8/20"` is not a column; and
`"France"` matches no row. -/
theorem claim_C6_witness :
    cases_for_country tblC6 "Poland" 7 13 2020 =
      Except.error HWError.InvalidDateError ∧
    cases_for_country tblC6 "Poland" 8 3 2020 =
      Except.error HWError.DateNotFoundError ∧
    cases_for_country tblC6 "France" 7 3 2020 =
      Except.error HWError.CountryNotFoundError :=
  ⟨(claim_C6 tblC6 "Poland" 7 13 2020).1 (by decide),
   (claim_C6 tblC6 "Poland" 8 3 2020).2.1 "3/8/20" rfl (by decide),
   (claim_C6 tblC6 "France" 7 3 2020).2.2 "3/7/20" rfl (by decide) (by decide)⟩

/-!
Claim C1 — the changed-row count between consecutive days.  The code builds
the previous-day key by stripping every `"/0"` from the zero-padded
`strftime` output, which also strips the leading zero of a two-digit year
below 10: for 31 December 2009 it computes `"12/31/9"`, while the formatter's
DateKey for that day is `"12/31/09"`.  The claim as stated (both formatter
DateKeys present as columns imply the changed-row count is returned) fails at
`(1, 1, 2010)`; it holds as soon as the previous day's year is at least 2010,
when the stripped key and the formatter key coincide.
-/

/-- A fixture for the claim C1 counterexample: the formatter DateKeys of
1 January 2010 and of its predecessor 31 December 2009 are both columns. -/
def tblC1 : Table :=
  { rows := [Row.mk "Poland" (fun c => if c = "1/1/10" then 1 else 0)],
    columns := ["12/31/09", "1/1/10"] }

/-- Claim C1, counterexample: on `tblC1` both the DateKey of `(1, 1, 2010)`
and the DateKey of the preceding calendar day `(31, 12, 2009)` are columns and
exactly one row changed, yet `no_new_cases_count` raises `DateNotFoundError`
instead of returning the count — it looks up the stripped key `"12/31/9"`,
not the DateKey `"12/31/09"`. -/
theorem claim_C1_counterexample :
    get_date_str 1 1 2010 = Except.ok "1/1/10" ∧
    get_date_str 31 12 2009 = Except.ok "12/31/09" ∧
    "1/1/10" ∈ tblC1.columns ∧ "12/31/09" ∈ tblC1.columns ∧
    (tblC1.rows.countP
      (fun r => r.cells "1/1/10" != r.cells "12/31/09")) = 1 ∧
    codePrevDateStr 1 1 2010 = "12/31/9" ∧
    no_new_cases_count tblC1 1 1 2010 = Except.error HWError.DateNotFoundError :=
  ⟨rfl, rfl, by decide, by decide, rfl, rfl, rfl⟩

/-- Claim C1 as amended: for a valid calendar date within the formatter's
bounds whose previous day falls in year 2010 or later, if the date's DateKey
and the previous day's DateKey (as produced by the formatter) are both
columns, then `no_new_cases_count` returns the number of rows whose values at
the two keys differ — raw rows, duplicate labels counted separately — and the
previous day computed by the code is indeed the calendar predecessor: stepping
forward one calendar day from it returns the original date, across month and
year boundaries and respecting leap years. -/
theorem claim_C1 (t : Table) (d m y : Nat) (h1 : 1 ≤ d)
    (h2 : d ≤ daysInMonth m y) (h3 : 1 ≤ m) (h4 : m ≤ 12)
    (h5 : 2010 ≤ (prevDay d m y).2.2) (h6 : y ≤ 2020) (s ps : String)
    (hs : get_date_str d m y = Except.ok s)
    (hps : get_date_str (prevDay d m y).1 (prevDay d m y).2.1
      (prevDay d m y).2.2 = Except.ok ps)
    (hcol : s ∈ t.columns) (hpcol : ps ∈ t.columns) :
    no_new_cases_count t d m y =
      Except.ok (t.rows.countP (fun r => r.cells s != r.cells ps)) ∧
    nextDay (prevDay d m y).1 (prevDay d m y).2.1 (prevDay d m y).2.2 =
      (d, m, y) := by
  have hd31 : d ≤ 31 := le_trans h2 (daysInMonth_bounds m y).2
  have hb := prevDay_bounds d m y h1 hd31 h3 h4
  have hyy : (prevDay d m y).2.2 ≤ 2020 := by
    rcases prevDay_year d m y with h | h <;> omega
  have hy1 : 1 ≤ y := by
    rcases prevDay_year d m y with h | h <;> omega
  rw [get_date_str, if_pos ⟨hb.1, hb.2.1, hb.2.2.1, hb.2.2.2,
    le_trans (by omega) h5, hyy⟩] at hps
  have hps2 : codePrevDateStr d m y = ps := by
    rw [codePrevDateStr_eq d m y h1 hd31 h3 h4,
      show toString ((prevDay d m y).2.2 % 100) =
        (toString (prevDay d m y).2.2).drop 2 from
        (yearDropStr (prevDay d m y).2.2 h5 hyy).symm]
    exact Except.ok.inj hps
  constructor
  · simp only [no_new_cases_count, hs]
    rw [if_pos h2, hps2, if_pos ⟨hcol, hpcol⟩,
      List.countP_eq_length_filter]
  · exact nextDay_prevDay d m y h1 h2 h3 h4 hy1

/-- A fixture for the claim C1 witness: the leap-year boundary 1 March 2020,
whose calendar predecessor is 29 February 2020; one of the two rows changed. -/
def tblW1 : Table :=
  { rows := [Row.mk "Poland" (fun c => if c = "3/1/20" then 5 else 3),
      Row.mk "France" (fun _ => 7)],
    columns := ["2/29/20", "3/1/20"] }

/-- Claim C1 witness: the amended statement applied at `(1, 3, 2020)` on
`tblW1` — the previous day is 29 February 2020 (leap year) and exactly one of
the two rows changed. -/
theorem claim_C1_witness :
    no_new_cases_count tblW1 1 3 2020 = Except.ok 1 ∧
    nextDay 29 2 2020 = (1, 3, 2020) := by
  have h := claim_C1 tblW1 1 3 2020 (by decide) (by decide) (by decide)
    (by decide) (by decide) (by decide) "3/1/20" "2/29/20" rfl rfl
    (by decide) (by decide)
  exact ⟨h.1.trans (by rfl), h.2⟩

/-!
Claim C7 — error paths of `no_new_cases_count`.  The first part is as
claimed: a missing column (for instance querying the series' first date,
whose predecessor precedes every column) raises `DateNotFoundError`.  The
second part fails: a bounds-valid non-calendar date such as 31 February 2020
passes the formatter but is rejected by `strptime` when the code computes the
previous day, so `no_new_cases_count` raises `InvalidDateError` before any
table lookup — it never reaches the columns.  (In the single-country lookup,
which performs no date arithmetic, Feb 31 does reach the table and fails with
`DateNotFoundError` as the claim describes.)
-/

/-- A fixture for the claim C7 counterexample: the non-calendar key
`"2/31/20"` even exists as a column, yet `no_new_cases_count` never looks. -/
def tblC7 : Table :=
  { rows := [Row.mk "Poland" (fun _ => 0)], columns := ["2/31/20"] }

/-- Claim C7, counterexample: `(31, 2, 2020)` passes the formatter, but
`no_new_cases_count` fails with `InvalidDateError` (the `strptime` re-parse
rejects Feb 31), not with `DateNotFoundError` as claimed — even on a table
whose only column is `"2/31/20"`. -/
theorem claim_C7_counterexample :
    get_date_str 31 2 2020 = Except.ok "2/31/20" ∧
    "2/31/20" ∈ tblC7.columns ∧
    no_new_cases_count tblC7 31 2 2020 = Except.error HWError.InvalidDateError ∧
    HWError.InvalidDateError ≠ HWError.DateNotFoundError :=
  ⟨rfl, by decide, rfl, by decide⟩

/-- Claim C7 as amended: (i) for a calendar-valid in-bounds date, if either
the date's key or the computed previous-day key is missing from the columns,
`no_new_cases_count` fails with `DateNotFoundError` — in particular on the
first date of the series, whose predecessor is not a column; (ii) for the
bounds-valid non-calendar date `(31, 2, 2020)`, `no_new_cases_count` fails
with `InvalidDateError` from the previous-day computation on every table;
(iii) the single-country lookup on `(31, 2, 2020)` does fail with
`DateNotFoundError` at lookup time whenever `"2/31/20"` is not a column. -/
theorem claim_C7 :
    (∀ (t : Table) (d m y : Nat) (s : String),
      get_date_str d m y = Except.ok s → d ≤ daysInMonth m y →
      ¬(s ∈ t.columns ∧ codePrevDateStr d m y ∈ t.columns) →
      no_new_cases_count t d m y = Except.error HWError.DateNotFoundError) ∧
    (∀ t : Table,
      no_new_cases_count t 31 2 2020 = Except.error HWError.InvalidDateError) ∧
    (∀ (t : Table) (name : String), "2/31/20" ∉ t.columns →
      cases_for_country t name 31 2 2020 =
        Except.error HWError.DateNotFoundError) := by
  refine ⟨fun t d m y s hs hcal hmiss => ?_, fun t => rfl,
    fun t name hcol => ?_⟩
  · simp only [no_new_cases_count, hs]
    rw [if_pos hcal, if_neg hmiss]
  · have h20 : get_date_str 31 2 2020 = Except.ok "2/31/20" := rfl
    simp only [cases_for_country, h20]
    rw [if_neg hcol]

/-- A fixture for the claim C7 witness: the first date of the JHU series,
22 January 2020; its predecessor's key `"1/21/20"` is not a column. -/
def tblW7 : Table :=
  { rows := [Row.mk "Poland" (fun _ => 0)], columns := ["1/22/20"] }

/-- Claim C7 witness: the amended statement applied on `tblW7` — querying the
first date of the series fails with `DateNotFoundError`; Feb 31 fails with
`InvalidDateError` in `no_new_cases_count` but with `DateNotFoundError` in
the single-country lookup. -/
theorem claim_C7_witness :
    no_new_cases_count tblW7 22 1 2020 = Except.error HWError.DateNotFoundError ∧
    no_new_cases_count tblW7 31 2 2020 = Except.error HWError.InvalidDateError ∧
    cases_for_country tblW7 "Poland" 31 2 2020 =
      Except.error HWError.DateNotFoundError :=
  ⟨claim_C7.1 tblW7 22 1 2020 "1/22/20" rfl (by decide) (by decide),
   claim_C7.2.1 tblW7,
   claim_C7.2.2 tblW7 "Poland" (by decide)⟩

/-!
Order-theoretic facts about the label order and the two sort comparators,
and the stability argument: inserting by descending count into a list that is
sorted by descending count with ties in ascending label order, an element
whose label is below every label present, preserves that combined order.
-/

theorem charListLe_cons (a b : Char) (as bs : List Char) :
    charListLe (a :: as) (b :: bs) =
      if a = b then charListLe as bs else decide (a < b) := rfl

theorem charListLe_total : ∀ as bs,
    charListLe as bs = true ∨ charListLe bs as = true
  | [], _ => Or.inl rfl
  | _ :: _, [] => Or.inr rfl
  | a :: as, b :: bs => by
    rw [charListLe_cons, charListLe_cons]
    by_cases hab : a = b
    · subst hab
      rw [if_pos rfl, if_pos rfl]
      exact charListLe_total as bs
    · rw [if_neg hab, if_neg (fun h => hab h.symm)]
      rcases lt_or_gt_of_ne hab with h | h
      · exact Or.inl (by simp [h])
      · exact Or.inr (by simp [h])

theorem charListLe_antisymm : ∀ as bs, charListLe as bs = true →
    charListLe bs as = true → as = bs
  | [], [], _, _ => rfl
  | [], _ :: _, _, h2 => Bool.noConfusion h2
  | _ :: _, [], h1, _ => Bool.noConfusion h1
  | a :: as, b :: bs, h1, h2 => by
    rw [charListLe_cons] at h1 h2
    by_cases hab : a = b
    · subst hab
      rw [if_pos rfl] at h1 h2
      rw [charListLe_antisymm as bs h1 h2]
    · rw [if_neg hab] at h1
      rw [if_neg (fun h => hab h.symm)] at h2
      exact absurd (of_decide_eq_true h1) (lt_asymm (of_decide_eq_true h2))

theorem charListLe_trans : ∀ as bs cs, charListLe as bs = true →
    charListLe bs cs = true → charListLe as cs = true
  | [], _, _, _, _ => rfl
  | _ :: _, [], _, h1, _ => Bool.noConfusion h1
  | _ :: _, _ :: _, [], _, h2 => Bool.noConfusion h2
  | a :: as, b :: bs, c :: cs, h1, h2 => by
    rw [charListLe_cons] at h1 h2 ⊢
    by_cases hab : a = b <;> by_cases hbc : b = c
    · subst hab; subst hbc
      rw [if_pos rfl] at h1 h2 ⊢
      exact charListLe_trans as bs cs h1 h2
    · subst hab
      rw [if_pos rfl] at h1
      rw [if_neg hbc] at h2 ⊢
      exact h2
    · subst hbc
      rw [if_neg hab] at h1 ⊢
      exact h1
    · rw [if_neg hab] at h1
      rw [if_neg hbc] at h2
      have hac : a < c := lt_trans (of_decide_eq_true h1) (of_decide_eq_true h2)
      rw [if_neg (ne_of_lt hac)]
      simp [hac]

theorem labelLe_antisymm (a b : String) (h1 : labelLe a b) (h2 : labelLe b a) :
    a = b :=
  String.ext (charListLe_antisymm a.data b.data h1 h2)

instance : IsTotal String labelLe :=
  ⟨fun a b => charListLe_total a.data b.data⟩

instance : IsTrans String labelLe :=
  ⟨fun a b c => charListLe_trans a.data b.data c.data⟩

instance : IsTotal (String × Int) countGe :=
  ⟨fun p q => le_total q.2 p.2⟩

instance : IsTrans (String × Int) countGe :=
  ⟨fun _ _ _ h1 h2 => le_trans h2 h1⟩

instance : IsTotal (String × Int) combOrd := by
  constructor
  intro p q
  rcases lt_trichotomy p.2 q.2 with h | h | h
  · exact Or.inr (Or.inl h)
  · rcases charListLe_total p.1.data q.1.data with hl | hl
    · exact Or.inl (Or.inr ⟨h.symm, hl⟩)
    · exact Or.inr (Or.inr ⟨h, hl⟩)
  · exact Or.inl (Or.inl h)

instance : IsTrans (String × Int) combOrd := by
  constructor
  intro p q r h1 h2
  rcases h1 with h1 | ⟨e1, l1⟩
  · rcases h2 with h2 | ⟨e2, l2⟩
    · exact Or.inl (lt_trans h2 h1)
    · exact Or.inl (e2 ▸ h1)
  · rcases h2 with h2 | ⟨e2, l2⟩
    · exact Or.inl (lt_of_lt_of_le h2 (le_of_eq e1))
    · exact Or.inr ⟨e2.trans e1, charListLe_trans _ _ _ l1 l2⟩

instance : IsAntisymm (String × Int) combOrd := by
  constructor
  intro p q h1 h2
  rcases h1 with h1 | ⟨e1, l1⟩
  · rcases h2 with h2 | ⟨e2, l2⟩
    · exact absurd h1 (lt_asymm h2)
    · exact absurd h1 (by rw [e2]; exact lt_irrefl _)
  · rcases h2 with h2 | ⟨e2, l2⟩
    · exact absurd h2 (by rw [e1]; exact lt_irrefl _)
    · exact Prod.ext (labelLe_antisymm p.1 q.1 l1 l2) e1.symm

theorem combOrd_snd_le {p q : String × Int} (h : combOrd p q) : q.2 ≤ p.2 := by
  rcases h with h | ⟨e, _⟩
  · exact le_of_lt h
  · exact le_of_eq e

theorem orderedInsert_countGe_pairwise (p : String × Int) :
    ∀ L : List (String × Int), L.Pairwise combOrd →
      (∀ q ∈ L, labelLe p.1 q.1) →
      (L.orderedInsert countGe p).Pairwise combOrd
  | [], _, _ => List.pairwise_singleton combOrd p
  | q :: L, hL, hp => by
    rcases List.pairwise_cons.mp hL with ⟨hq, hL2⟩
    rw [List.orderedInsert]
    by_cases hcg : countGe p q
    · rw [if_pos hcg]
      refine List.pairwise_cons.mpr ⟨fun x hx => ?_, hL⟩
      have hxle : x.2 ≤ p.2 := by
        rcases List.mem_cons.mp hx with rfl | hxL
        · exact hcg
        · exact le_trans (combOrd_snd_le (hq x hxL)) hcg
      rcases lt_or_eq_of_le hxle with h | h
      · exact Or.inl h
      · exact Or.inr ⟨h, hp x hx⟩
    · rw [if_neg hcg]
      refine List.pairwise_cons.mpr ⟨fun x hx => ?_, ?_⟩
      · rcases (List.mem_orderedInsert countGe).mp hx with rfl | hxL
        · exact Or.inl (not_le.mp hcg)
        · exact hq x hxL
      · exact orderedInsert_countGe_pairwise p L hL2
          (fun x hx => hp x (List.mem_cons_of_mem q hx))

theorem insertionSort_countGe_pairwise :
    ∀ l : List (String × Int), l.Pairwise (fun p q => labelLe p.1 q.1) →
      (l.insertionSort countGe).Pairwise combOrd
  | [], _ => List.Pairwise.nil
  | p :: l, h => by
    rcases List.pairwise_cons.mp h with ⟨hp, hl⟩
    rw [List.insertionSort]
    exact orderedInsert_countGe_pairwise p _
      (insertionSort_countGe_pairwise l hl)
      (fun q hq => hp q ((List.mem_insertionSort countGe).mp hq))

/-!
Facts about `firstOccurrences`: membership, lack of duplicates, and the
permutation with `dedup`.
-/

theorem mem_foldl_foStep : ∀ (l acc : List String) (x : String),
    x ∈ l.foldl foStep acc ↔ x ∈ acc ∨ x ∈ l
  | [], acc, x => by simp
  | c :: l, acc, x => by
    rw [List.foldl_cons, mem_foldl_foStep l (foStep acc c) x]
    unfold foStep
    by_cases h : c ∈ acc
    · rw [if_pos h]
      constructor
      · rintro (hx | hx)
        · exact Or.inl hx
        · exact Or.inr (List.mem_cons_of_mem c hx)
      · rintro (hx | hx)
        · exact Or.inl hx
        · rcases List.mem_cons.mp hx with rfl | hx
          · exact Or.inl h
          · exact Or.inr hx
    · rw [if_neg h]
      constructor
      · rintro (hx | hx)
        · rcases List.mem_append.mp hx with hx | hx
          · exact Or.inl hx
          · exact Or.inr (by simp [List.eq_of_mem_singleton hx])
        · exact Or.inr (List.mem_cons_of_mem c hx)
      · rintro (hx | hx)
        · exact Or.inl (List.mem_append_left _ hx)
        · rcases List.mem_cons.mp hx with rfl | hx
          · exact Or.inl (List.mem_append_right _ (List.mem_singleton_self x))
          · exact Or.inr hx

theorem nodup_foldl_foStep : ∀ (l acc : List String), acc.Nodup →
    (l.foldl foStep acc).Nodup
  | [], _, h => h
  | c :: l, acc, h => by
    rw [List.foldl_cons]
    apply nodup_foldl_foStep l
    unfold foStep
    by_cases hc : c ∈ acc
    · rwa [if_pos hc]
    · rw [if_neg hc]
      exact List.Nodup.append h (List.nodup_singleton c)
        (fun x hx hx2 => hc (List.eq_of_mem_singleton hx2 ▸ hx))

theorem mem_firstOccurrences (l : List String) (x : String) :
    x ∈ firstOccurrences l ↔ x ∈ l := by
  rw [firstOccurrences, mem_foldl_foStep]
  simp

theorem nodup_firstOccurrences (l : List String) :
    (firstOccurrences l).Nodup :=
  nodup_foldl_foStep l [] List.nodup_nil

theorem firstOccurrences_perm_dedup (l : List String) :
    (firstOccurrences l).Perm l.dedup :=
  (List.perm_ext_iff_of_nodup (nodup_firstOccurrences l)
    (List.nodup_dedup l)).mpr
    (fun a => by rw [mem_firstOccurrences, List.mem_dedup])

/-- The ranking actually computed by the code — a stable descending sort by
summed count over the groups listed in ascending label order — equals the
ranking sorted by the combined order: count descending, ties by ascending
label. -/
theorem ranking_eq (t : Table) (date : String) :
    ((((t.rows.map Row.label).dedup.insertionSort labelLe).map
        (fun c => (c, countrySum t date c))).insertionSort countGe) =
    (((firstOccurrences (t.rows.map Row.label)).map
        (fun c => (c, countrySum t date c))).insertionSort combOrd) := by
  apply List.eq_of_perm_of_sorted (r := combOrd)
  · refine ((List.perm_insertionSort countGe _).trans ?_).trans
      (List.perm_insertionSort combOrd _).symm
    exact List.Perm.map _ ((List.perm_insertionSort labelLe _).trans
      (firstOccurrences_perm_dedup _).symm)
  · exact insertionSort_countGe_pairwise _
      (List.pairwise_map.mpr (List.sorted_insertionSort labelLe _))
  · exact List.sorted_insertionSort combOrd _

/-!
Claim C2 — the ordering of the top-`n` ranking.  Grouping does aggregate all
rows sharing a label, and the sort is by summed count descending; but ties
are *not* broken by first appearance: `groupby` (with its default
`sort=True`) lists the groups in ascending label order before the sort, so
tied groups come out in ascending lexicographic label order regardless of
where they first appear in the table.
-/

/-- A fixture for the claim C2 counterexample: label `"B"` appears before
label `"A"` in the table and both sum to 5 at the date key. -/
def tblC2 : Table :=
  { rows := [Row.mk "B" (fun _ => 5), Row.mk "A" (fun _ => 5)],
    columns := ["3/7/20"] }

/-- Claim C2, counterexample: with tied counts, the claimed first-appearance
tie-break yields `["B", "A"]`, but the code returns `["A", "B"]` — ascending
label order, because grouping sorted the labels. -/
theorem claim_C2_counterexample :
    topN_claimed tblC2 5 "3/7/20" = ["B", "A"] ∧
    top5_countries_by_date tblC2 7 3 2020 = Except.ok ["A", "B"] ∧
    (["B", "A"] : List String) ≠ ["A", "B"] :=
  ⟨rfl, rfl, by decide⟩

/-- Claim C2 as amended: for every table with fewer than 16 distinct country
labels (the regime in which the program's default sort — numpy's quicksort,
an insertion sort on slices below 16 elements — is stable, so its tie order
is determined), every `n` and every valid date whose key is a column, the
top-`n` operation returns the group labels with their summed counts ordered
by count descending, ties broken by ascending lexicographic label order (not
by first appearance), truncated to the first `n`.  For 16 or more distinct
labels the program's tie order is unspecified and nothing is claimed. -/
theorem claim_C2 (t : Table) (n d m y : Nat) (s : String)
    (_hsize : ((t.rows.map Row.label).dedup).length < 16)
    (hs : get_date_str d m y = Except.ok s) (hcol : s ∈ t.columns) :
    top_n_countries t n d m y = Except.ok (topN_amended t n s) := by
  simp only [top_n_countries, hs]
  rw [if_pos hcol]
  simp only [topN_amended]
  rw [ranking_eq t s]

/-- A fixture for the claim C2 witness: a genuine tie between labels `"B"`
and `"A"`, listed in the table in that order. -/
def tblW2 : Table :=
  { rows := [Row.mk "B" (fun _ => 7), Row.mk "A" (fun _ => 7)],
    columns := ["3/7/20"] }

/-- Claim C2 witness: the amended statement applied on `tblW2` — two distinct
labels, well below the 16-element stability bound — where the tie comes out
in ascending label order `["A", "B"]`. -/
theorem claim_C2_witness :
    top_n_countries tblW2 5 7 3 2020 =
      Except.ok (topN_amended tblW2 5 "3/7/20") ∧
    topN_amended tblW2 5 "3/7/20" = ["A", "B"] :=
  ⟨claim_C2 tblW2 5 7 3 2020 "3/7/20" (by decide) rfl (by decide), rfl⟩

/-!
Claim C8 — shape of the top-`n` result: its length is the minimum of `n` and
the number of distinct labels, and the aggregated counts are non-increasing
along the result.
-/

/-- Claim C8: when the date key is a column, the top-`n` operation returns a
list whose length is `min n (number of distinct country labels)` — in
particular all labels when fewer than `n` exist — and whose aggregated case
counts are non-increasing along the list. -/
theorem claim_C8 (t : Table) (n d m y : Nat) (s : String) (l : List String)
    (hs : get_date_str d m y = Except.ok s) (hcol : s ∈ t.columns)
    (hres : top_n_countries t n d m y = Except.ok l) :
    l.length = min n ((t.rows.map Row.label).dedup.length) ∧
    (l.map (countrySum t s)).Pairwise (fun a b : Int => b ≤ a) := by
  simp only [top_n_countries, hs] at hres
  rw [if_pos hcol] at hres
  have hl := (Except.ok.inj hres).symm
  subst hl
  constructor
  · simp only [List.length_map, List.length_take, List.length_insertionSort]
  · have hsorted := List.sorted_insertionSort countGe
      (((t.rows.map Row.label).dedup.insertionSort labelLe).map
        (fun c => (c, countrySum t s c)))
    have htk := List.Pairwise.sublist (List.take_sublist n _) hsorted
    have hmem : ∀ p ∈ (((((t.rows.map Row.label).dedup.insertionSort
        labelLe).map (fun c => (c, countrySum t s c))).insertionSort
          countGe).take n),
        countrySum t s p.1 = p.2 := by
      intro p hp
      have hpA := (List.perm_insertionSort countGe _).mem_iff.mp
        ((List.take_sublist n _).subset hp)
      rcases List.mem_map.mp hpA with ⟨c, _, rfl⟩
      rfl
    rw [List.map_map,
      show ((((((t.rows.map Row.label).dedup.insertionSort labelLe).map
          (fun c => (c, countrySum t s c))).insertionSort countGe).take
            n).map (countrySum t s ∘ Prod.fst)) =
        ((((((t.rows.map Row.label).dedup.insertionSort labelLe).map
          (fun c => (c, countrySum t s c))).insertionSort countGe).take
            n).map Prod.snd) from
        List.map_congr_left (fun p hp => hmem p hp)]
    exact List.pairwise_map.mpr htk

/-- A fixture for the claim C8 witness: three countries with distinct sums. -/
def tblW8 : Table :=
  { rows := [Row.mk "C" (fun _ => 1), Row.mk "B" (fun _ => 5),
      Row.mk "A" (fun _ => 3)],
    columns := ["3/7/20"] }

/-- Claim C8 witness: on `tblW8` with `n = 2` the result is `["B", "A"]`,
of length `min 2 3 = 2`, with counts `[5, 3]` non-increasing. -/
theorem claim_C8_witness :
    (["B", "A"] : List String).length =
      min 2 ((tblW8.rows.map Row.label).dedup.length) ∧
    ((["B", "A"] : List String).map (countrySum tblW8 "3/7/20")).Pairwise
      (fun a b : Int => b ≤ a) :=
  claim_C8 tblW8 2 7 3 2020 "3/7/20" ["B", "A"] rfl (by decide) rfl

/-!
Claim C10 — distinctness of the returned labels: ranking is computed over
label groups, so no label appears twice in the top-5 list.
-/

/-- Claim C10: any list returned by the top-5 operation has pairwise distinct
country labels, even when the table holds several rows of the same label. -/
theorem claim_C10 (t : Table) (d m y : Nat) (s : String) (l : List String)
    (hs : get_date_str d m y = Except.ok s) (hcol : s ∈ t.columns)
    (hres : top5_countries_by_date t d m y = Except.ok l) : l.Nodup := by
  simp only [top5_countries_by_date, top_n_countries, hs] at hres
  rw [if_pos hcol] at hres
  have hl := (Except.ok.inj hres).symm
  subst hl
  rw [List.map_take]
  apply List.Nodup.sublist (List.take_sublist 5 _)
  refine ((List.Perm.map Prod.fst
    (List.perm_insertionSort countGe _)).nodup_iff).mpr ?_
  have hfst : (((t.rows.map Row.label).dedup.insertionSort labelLe).map
      (fun c => (c, countrySum t s c))).map Prod.fst =
      ((t.rows.map Row.label).dedup.insertionSort labelLe) := by
    simp [Function.comp_def]
  rw [hfst]
  exact (List.perm_insertionSort labelLe _).nodup_iff.mpr
    (List.nodup_dedup _)

/-- A fixture for the claim C10 witness: two rows share the label
`"Poland"`. -/
def tblW10 : Table :=
  { rows := [Row.mk "Poland" (fun _ => 5), Row.mk "Poland" (fun _ => 7),
      Row.mk "Czechia" (fun _ => 3)],
    columns := ["3/7/20"] }

/-- Claim C10 witness: on `tblW10`, which holds two `"Poland"` rows, the
top-5 result `["Poland", "Czechia"]` has no duplicate label. -/
theorem claim_C10_witness : (["Poland", "Czechia"] : List String).Nodup :=
  claim_C10 tblW10 7 3 2020 "3/7/20" ["Poland", "Czechia"] rfl (by decide) rfl
